import Mathlib

/-!
Verification of the SAP consistency evaluator (src/sap/consistency_evaluator.py).

This file gives a shallow embedding of the entity-matching and multi-field
consistency-scoring engine into Lean 4, and proves/refutes the frozen claims
about it.  Python strings are modelled as Lean `String`; a Python value that
may be `None` is modelled as `Option String` (`none` = Python `None`); Python
floats are modelled as `ℚ` (exact arithmetic; the float rounding of the
original is immaterial to every claim, which concerns exact branch structure
and rational score values).  Python dicts are modelled as association lists
in insertion order (dict iteration order).  Logging calls of the source are
pure no-ops and are omitted; comments mark each place where a logging call
occurs in the source.
-/

/-- Python `str.lower()` restricted to ASCII case mapping (all inputs that the
claims exercise are ASCII; `Char.toLower` performs the ASCII mapping). -/
def pyLower (s : String) : String := ⟨s.data.map Char.toLower⟩

/-- Python whitespace test used by `str.strip()` (ASCII subset). -/
def pyWS (c : Char) : Bool :=
  c = ' ' || c = '\t' || c = '\n' || c = '\r' || c = '\x0b' || c = '\x0c'

/-- Python `str.strip()`: remove leading and trailing whitespace. -/
def pyStrip (s : String) : String :=
  ⟨(s.data.dropWhile pyWS).reverse.dropWhile pyWS |>.reverse⟩

/-- Python `s.replace(' ', '')`: remove every space character (only U+0020). -/
def removeSpaces (s : String) : String := ⟨s.data.filter (fun c => c ≠ ' ')⟩

/-- Helper: list prefix test (`pat` begins `l`). -/
def listLeads : List Char → List Char → Bool
  | [], _ => true
  | _ :: _, [] => false
  | p :: ps, c :: cs => p = c && listLeads ps cs

/-- Python `pat in s` substring test on char lists. -/
def listHasSub : List Char → List Char → Bool
  | l, pat =>
    match l with
    | [] => pat.isEmpty
    | _ :: t => listLeads pat l || listHasSub t pat

/-- Python `pat in s` substring containment. -/
def strContains (s pat : String) : Bool := listHasSub s.data pat.data

/-- Kernel-friendly natural minimum (definitionally an `if`). -/
def natMin (a b : Nat) : Nat := if a ≤ b then a else b

/-- Kernel-friendly natural maximum (definitionally an `if`). -/
def natMax (a b : Nat) : Nat := if a ≤ b then b else a

/-- Kernel-friendly rational absolute value (definitionally an `if`). -/
def qAbs (q : ℚ) : ℚ := if q < 0 then -q else q

theorem natMin_eq_min (a b : Nat) : natMin a b = min a b := by
  unfold natMin; rw [Nat.min_def]

theorem natMax_eq_max (a b : Nat) : natMax a b = max a b := by
  unfold natMax; rw [Nat.max_def]

theorem qAbs_eq_abs (q : ℚ) : qAbs q = |q| := by
  unfold qAbs
  split
  · exact (abs_of_neg (by assumption)).symm
  · exact (abs_of_nonneg (not_lt.mp (by assumption))).symm

/-- Hex digit value for percent-decoding. -/
def hexVal (c : Char) : Option Nat :=
  if '0' ≤ c ∧ c ≤ '9' then some (c.toNat - '0'.toNat)
  else if 'a' ≤ c ∧ c ≤ 'f' then some (c.toNat - 'a'.toNat + 10)
  else if 'A' ≤ c ∧ c ≤ 'F' then some (c.toNat - 'A'.toNat + 10)
  else none

/-- Models `urllib.parse.unquote` on char lists: decode `%XX` escape sequences.
The Python original groups consecutive escapes and decodes them as UTF-8; for
the ASCII inputs relevant here byte-per-byte decoding coincides with it. -/
def unquoteChars : List Char → List Char
  | [] => []
  | '%' :: a :: b :: rest =>
    match hexVal a, hexVal b with
    | some x, some y => Char.ofNat (16 * x + y) :: unquoteChars rest
    | _, _ => '%' :: unquoteChars (a :: b :: rest)
  | c :: rest => c :: unquoteChars rest

/-- Models `urllib.parse.unquote` (percent-decoding). -/
def unquote (s : String) : String := ⟨unquoteChars s.data⟩

/-- Source `check_empty` (consistency_evaluator.py line 24): a value is absent
when it is the string `NONE`, the string `NOASSERTION`, or Python `None`. -/
def check_empty (v : Option String) : Bool :=
  v = some "NONE" || v = some "NOASSERTION" || v = none

/-- Source `equal_cmp` (lines 28-36): exact case-insensitive equality with
absence and `NE` placeholders scoring 0. -/
def equal_cmp (v1 v2 : Option String) : ℚ :=
  if (check_empty v1 && check_empty v2) || (v1 = some "" && v2 = some "") then 0
  else if v1 = some "NE" || v2 = some "NE" || check_empty v1 || check_empty v2
      || v1 = some "" || v2 = some "" then 0
  else if pyLower (v1.getD "") = pyLower (v2.getD "") then 1
  else 0

/-- Source `check_digit` (line 39): every char a digit or a dot, and nonempty. -/
def check_digit (version : String) : Bool :=
  version.data.all (fun c => c.isDigit || c = '.') && version ≠ ""

/-- Source `deal_filename` (lines 43-48): strip one leading `./` or `/`. -/
def deal_filename (name : String) : String :=
  match name.data with
  | '.' :: '/' :: rest => ⟨rest⟩
  | '/' :: rest => ⟨rest⟩
  | _ => name

/-- The alternatives of the `re.sub` pattern in `compareName` (line 53), in the
order they appear in the pattern (Python alternation tries them in order). -/
def nameAlts : List (List Char) :=
  ["pub:", "npm:", "pip:", "go:", "actions:", "composer:", "rust:", "ruby:",
   "nuget:", "rubygems:", "docker:", "maven:", "iconv:", " "].map String.data

/-- First alternative of the name pattern matching at the head of `l`. -/
def nameAltAt (l : List Char) : Option (List Char) :=
  nameAlts.findSome? (fun a => if listLeads a l then some a else none)

/-- One left-to-right pass of `re.sub(pattern, '', name)`: at each position the
leftmost match of the alternation is removed.  `fuel` bounds the recursion and
is initialised to the length of the input, which always suffices because every
alternative is nonempty. -/
def reSubChars : Nat → List Char → List Char
  | 0, l => l
  | _ + 1, [] => []
  | fuel + 1, c :: rest =>
    match nameAltAt (c :: rest) with
    | some a => reSubChars fuel ((c :: rest).drop a.length)
    | none => c :: reSubChars fuel rest

/-- The normalisation pass of `compareName`: percent-decode, strip known
scheme prefixes/spaces anywhere in the string, and lower-case. -/
def nameNormalize (name : String) : String :=
  let u := unquote name
  pyLower ⟨reSubChars u.data.length u.data⟩

/-- Source `compareName` (lines 51-57).  The `15.4.6` check of the source only
logs and does not alter the result, so it is omitted. -/
def compareName (name1 name2 : String) : ℚ :=
  equal_cmp (some (nameNormalize name1)) (some (nameNormalize name2))

/-- Bounds for `equal_cmp`: every result is 0 or 1. -/
theorem equal_cmp_bounds (v1 v2 : Option String) :
    0 ≤ equal_cmp v1 v2 ∧ equal_cmp v1 v2 ≤ 1 := by
  unfold equal_cmp
  split <;> [skip; split <;> [skip; split]] <;> norm_num

/-- Bounds for `compareName`. -/
theorem compareName_bounds (n1 n2 : String) :
    0 ≤ compareName n1 n2 ∧ compareName n1 n2 ≤ 1 := by
  unfold compareName; exact equal_cmp_bounds _ _

/-- Number of `true` entries in a flag list. -/
def countTrue (l : List Bool) : Nat := l.countP id

/-- Greedy matching step of the Jaro similarity: mark the first unmatched
position `j` with `lo ≤ j ≤ hi` whose character equals `c`.  Returns the
updated flag list on success. -/
def markAux (c : Char) (lo hi : Nat) : Nat → List Char → List Bool → Option (List Bool)
  | _, [], _ => none
  | _, _ :: _, [] => none
  | j, ch :: cs, f :: fs =>
    if hi < j then none
    else if lo ≤ j ∧ f = false ∧ ch = c then some (true :: fs)
    else (markAux c lo hi (j + 1) cs fs).map (fun l => f :: l)

/-- Greedy matching loop of the Jaro similarity: for each character of the
first string (at index `i`) try to match an unmatched character of the second
string within the window.  Returns the matched characters of the first string
in order, and the final flag list for the second string. -/
def jaroScan (s2 : List Char) (win : Nat) : Nat → List Char → List Bool → List Char × List Bool
  | _, [], flags => ([], flags)
  | i, c :: cs, flags =>
    match markAux c (i - win) (i + win) 0 s2 flags with
    | some fl2 =>
      let r := jaroScan s2 win (i + 1) cs fl2
      (c :: r.1, r.2)
    | none => jaroScan s2 win (i + 1) cs flags

/-- Positions at which the two matched-character sequences disagree (full
transposition count, before halving). -/
def mismatchCount (l1 l2 : List Char) : Nat :=
  (l1.zip l2).countP (fun p => p.1 ≠ p.2)

/-- The Jaro score from lengths `a`, `b`, match count `m` and full
transposition count `mis`. -/
def jaroFormula (a b m mis : Nat) : ℚ :=
  if m = 0 then 0
  else ((m : ℚ) / a + (m : ℚ) / b + ((m : ℚ) - (mis : ℚ) / 2) / m) / 3

/-- Models the `jaro` function of the Levenshtein library on char lists:
greedy matching within window `max(len1,len2)/2 - 1` (clamped at 0, Nat
subtraction), then the standard Jaro formula; two empty strings score 1. -/
def jaroL (l1 l2 : List Char) : ℚ :=
  if l1 = [] ∧ l2 = [] then 1
  else
    let win := (max l1.length l2.length) / 2 - 1
    let sc := jaroScan l2 win 0 l1 (l2.map (fun _ => false))
    let m2 := ((l2.zip sc.2).filter (fun p => p.2)).map Prod.fst
    jaroFormula l1.length l2.length sc.1.length (mismatchCount sc.1 m2)

/-- Models the `jaro` string-similarity function of the Levenshtein library. -/
def jaro (s1 s2 : String) : ℚ := jaroL s1.data s2.data

theorem markAux_length (c : Char) (lo hi : Nat) :
    ∀ (j : Nat) (cs : List Char) (fs fs2 : List Bool),
      markAux c lo hi j cs fs = some fs2 → fs2.length = fs.length := by
  intro j cs
  induction cs generalizing j with
  | nil => intro fs fs2 h; simp [markAux] at h
  | cons ch cs ih =>
    intro fs fs2 h
    cases fs with
    | nil => simp [markAux] at h
    | cons f fl =>
      unfold markAux at h
      split at h
      · exact absurd h (by simp)
      · split at h
        · cases h; rfl
        · simp only [Option.map_eq_some'] at h
          obtain ⟨l2, hl2, rfl⟩ := h
          simp [ih _ _ _ hl2]

theorem markAux_count (c : Char) (lo hi : Nat) :
    ∀ (j : Nat) (cs : List Char) (fs fs2 : List Bool),
      markAux c lo hi j cs fs = some fs2 → countTrue fs2 = countTrue fs + 1 := by
  intro j cs
  induction cs generalizing j with
  | nil => intro fs fs2 h; simp [markAux] at h
  | cons ch cs ih =>
    intro fs fs2 h
    cases fs with
    | nil => simp [markAux] at h
    | cons f fl =>
      unfold markAux at h
      split at h
      · exact absurd h (by simp)
      · split at h
        · rename_i hcond
          cases h
          simp [countTrue, List.countP_cons, hcond.2.1]
        · simp only [Option.map_eq_some'] at h
          obtain ⟨l2, hl2, rfl⟩ := h
          have hc := ih _ _ _ hl2
          simp only [countTrue, List.countP_cons] at *
          omega

theorem jaroScan_spec (s2 : List Char) (win : Nat) :
    ∀ (cs : List Char) (i : Nat) (fs : List Bool),
      (jaroScan s2 win i cs fs).2.length = fs.length ∧
      countTrue (jaroScan s2 win i cs fs).2 =
        countTrue fs + (jaroScan s2 win i cs fs).1.length ∧
      (jaroScan s2 win i cs fs).1.length ≤ cs.length := by
  intro cs
  induction cs with
  | nil => intro i fs; simp [jaroScan]
  | cons c cs ih =>
    intro i fs
    unfold jaroScan
    cases hm : markAux c (i - win) (i + win) 0 s2 fs with
    | some fl2 =>
      have hlen := markAux_length c (i - win) (i + win) 0 s2 fs fl2 hm
      have hcnt := markAux_count c (i - win) (i + win) 0 s2 fs fl2 hm
      obtain ⟨h1, h2, h3⟩ := ih (i + 1) fl2
      refine ⟨by simpa [hlen] using h1, ?_, by simpa using h3⟩
      simp only [List.length_cons]
      omega
    | none =>
      obtain ⟨h1, h2, h3⟩ := ih (i + 1) fs
      exact ⟨h1, h2, Nat.le_succ_of_le h3⟩

theorem countTrue_le_length (l : List Bool) : countTrue l ≤ l.length :=
  List.countP_le_length _

theorem mismatchCount_le_left (l1 l2 : List Char) :
    mismatchCount l1 l2 ≤ l1.length := by
  calc mismatchCount l1 l2 ≤ (l1.zip l2).length := List.countP_le_length _
    _ ≤ l1.length := by rw [List.length_zip]; exact Nat.min_le_left _ _

theorem jaroFormula_bounds (a b m mis : Nat) (hma : m ≤ a) (hmb : m ≤ b)
    (hmis : mis ≤ m) : 0 ≤ jaroFormula a b m mis ∧ jaroFormula a b m mis ≤ 1 := by
  unfold jaroFormula
  split
  · norm_num
  · rename_i hm
    have hm1 : (1 : ℚ) ≤ (m : ℚ) := by exact_mod_cast Nat.one_le_iff_ne_zero.mpr hm
    have hmpos : (0 : ℚ) < (m : ℚ) := by linarith
    have hapos : (0 : ℚ) < (a : ℚ) := lt_of_lt_of_le hmpos (by exact_mod_cast hma)
    have hbpos : (0 : ℚ) < (b : ℚ) := lt_of_lt_of_le hmpos (by exact_mod_cast hmb)
    have hmisq : (mis : ℚ) ≤ (m : ℚ) := by exact_mod_cast hmis
    have hmisnn : (0 : ℚ) ≤ (mis : ℚ) := by positivity
    have t1a : (m : ℚ) / a ≤ 1 := (div_le_one hapos).mpr (by exact_mod_cast hma)
    have t1b : (0 : ℚ) ≤ (m : ℚ) / a := by positivity
    have t2a : (m : ℚ) / b ≤ 1 := (div_le_one hbpos).mpr (by exact_mod_cast hmb)
    have t2b : (0 : ℚ) ≤ (m : ℚ) / b := by positivity
    have t3a : ((m : ℚ) - (mis : ℚ) / 2) / m ≤ 1 :=
      (div_le_one hmpos).mpr (by linarith)
    have t3b : (0 : ℚ) ≤ ((m : ℚ) - (mis : ℚ) / 2) / m := by
      apply div_nonneg _ (le_of_lt hmpos); linarith
    constructor <;> linarith

theorem jaroL_bounds (l1 l2 : List Char) : 0 ≤ jaroL l1 l2 ∧ jaroL l1 l2 ≤ 1 := by
  unfold jaroL
  split
  · norm_num
  · obtain ⟨h1, h2, h3⟩ :=
      jaroScan_spec l2 ((max l1.length l2.length) / 2 - 1) l1 0
        (l2.map (fun _ => false))
    apply jaroFormula_bounds
    · exact h3
    · have hz : countTrue (l2.map (fun _ => false)) = 0 := by
        simp [countTrue, List.countP_eq_zero]
      calc (jaroScan l2 _ 0 l1 _).1.length
          = countTrue (jaroScan l2 ((max l1.length l2.length) / 2 - 1) 0 l1
              (l2.map (fun _ => false))).2 := by omega
        _ ≤ (jaroScan l2 ((max l1.length l2.length) / 2 - 1) 0 l1
              (l2.map (fun _ => false))).2.length := countTrue_le_length _
        _ = l2.length := by rw [h1]; simp
    · exact mismatchCount_le_left _ _

theorem jaro_bounds (s1 s2 : String) : 0 ≤ jaro s1 s2 ∧ jaro s1 s2 ≤ 1 :=
  jaroL_bounds _ _

/-- Python `str.split(sep)` with a one-character separator, on char lists:
consecutive separators produce empty components and the empty string yields
one empty component. -/
def splitOnChar (sep : Char) : List Char → List (List Char)
  | [] => [[]]
  | c :: rest =>
    let r := splitOnChar sep rest
    if c = sep then [] :: r
    else (c :: r.headD []) :: r.tail

/-- Python `str.split(sep)` with a one-character separator. -/
def pySplit (s : String) (sep : Char) : List String :=
  (splitOnChar sep s.data).map (fun l => ⟨l⟩)

/-- Parse a decimal digit string to a natural number, as Python `int` does on
the purely-numeric components admitted by `check_digit`. -/
def parseNat (s : String) : Nat :=
  s.data.foldl (fun a c => 10 * a + (c.toNat - '0'.toNat)) 0

/-- Contribution of one scored position of the non-semantic-version fallback of
`version_consistency` (lines 231-240): identical strings earn the full weight;
two purely numeric components earn `|a-b|/max(a,b) * w` (0 when both are 0);
otherwise the Jaro similarity of the lower-cased components times the weight.
Note the numeric branch multiplies the weight by the RELATIVE DIFFERENCE
itself, exactly as the source does. -/
def posScore (a b : String) (w : ℚ) : ℚ :=
  if a = b then w
  else if check_digit a && check_digit b then
    if natMax (parseNat a) (parseNat b) = 0 then 0
    else qAbs ((parseNat a : ℚ) - (parseNat b : ℚ)) /
      ((natMax (parseNat a) (parseNat b) : Nat) : ℚ) * w
  else jaro (pyLower a) (pyLower b) * w

/-- Strip one leading `v` or `V` (lines 173-176). -/
def stripLeadV (s : String) : String :=
  match s.data with
  | c :: rest => if c = 'v' || c = 'V' then ⟨rest⟩ else s
  | [] => s

/-- The three position weights of the fallback path, keyed to the number of
shared dot-separated components (lines 169, 219-222): `[1.0]` for one,
`[0.8, 0.2]` for two, `[0.7, 0.2, 0.1]` otherwise.  The third weight is only
read when at least three components are shared. -/
def fallbackWeights (len : Nat) : ℚ × ℚ × ℚ :=
  if len = 2 then (8/10, 2/10, 0)
  else if len = 1 then (1, 0, 0)
  else (7/10, 2/10, 1/10)

/-- Contribution of position 0 of the fallback loop (always scored). -/
def vfD0 (p1 p2 : List String) (w : ℚ × ℚ × ℚ) : ℚ :=
  posScore (p1.getD 0 "") (p2.getD 0 "") w.1

/-- Contribution of position 1 of the fallback loop: scored only when at least
two positions are shared and position 0 earned its full weight. -/
def vfD1 (p1 p2 : List String) (w : ℚ × ℚ × ℚ) (len : Nat) : ℚ :=
  if 2 ≤ len ∧ vfD0 p1 p2 w = w.1
  then posScore (p1.getD 1 "") (p2.getD 1 "") w.2.1 else 0

/-- Contribution of position 2 of the fallback loop: scored only when at least
three positions are shared and position 1 earned its full weight. -/
def vfD2 (p1 p2 : List String) (w : ℚ × ℚ × ℚ) (len : Nat) : ℚ :=
  if 3 ≤ len ∧ vfD1 p1 p2 w len = w.2.1
  then posScore (p1.getD 2 "") (p2.getD 2 "") w.2.2 else 0

/-- The fallback (non-semantic-version) comparison of `version_consistency`
(lines 216-241): split on `.`, score at most the first three shared positions
with a cascade that only continues past a position that earned its full
weight, and sum the contributions. -/
def versionFallback (v1 v2 : String) : ℚ :=
  vfD0 (pySplit v1 '.') (pySplit v2 '.')
      (fallbackWeights (natMin (pySplit v1 '.').length (pySplit v2 '.').length)) +
  vfD1 (pySplit v1 '.') (pySplit v2 '.')
      (fallbackWeights (natMin (pySplit v1 '.').length (pySplit v2 '.').length))
      (natMin (natMin (pySplit v1 '.').length (pySplit v2 '.').length) 3) +
  vfD2 (pySplit v1 '.') (pySplit v2 '.')
      (fallbackWeights (natMin (pySplit v1 '.').length (pySplit v2 '.').length))
      (natMin (natMin (pySplit v1 '.').length (pySplit v2 '.').length) 3)

/-- The normalisation applied before the deeper version comparison (lines
171-176): strip outer whitespace, remove every space, drop one leading `v` or
`V`.

Source `version_consistency` (lines 154-241) on two present strings (the
absence guards live in `version_consistency` below).  The semantic-version
branch of the source (lines 188-214) is a no-op: it is wrapped in
`try/except Exception: pass`, and when both strings are valid semantic
versions it always raises inside the `try` block (`semver.Version(str)` raises
`ValueError`, and the subsequent `jaro` calls receive the integer
major/minor/patch components and raise `TypeError`), so control always falls
through to the fallback path.  The `15.4.6` branch (lines 165-168) is a
deliberate early return 0 for a manually defined version marker.  The
special-character scan (lines 182-187) only logs and is omitted. -/
def vNorm (s : String) : String := stripLeadV (removeSpaces (pyStrip s))

/-- See the doc comment above: the core comparison of `version_consistency`
after the absence guards. -/
def versionCore (s1 s2 : String) : ℚ :=
  if pyLower s1 = pyLower s2 then 1
  else if s1 = "" || s2 = "" then 0
  else if strContains s1 "15.4.6" || strContains s2 "15.4.6" then 0
  else if pyLower (vNorm s1) = pyLower (vNorm s2) then 1
  else versionFallback (vNorm s1) (vNorm s2)

/-- Source `version_consistency` (lines 154-241): absence/`NE` guards followed
by `versionCore`.  The final catch-all branch is unreachable: after the guards
both arguments are `some`. -/
def version_consistency (version1 version2 : Option String) : ℚ :=
  if check_empty version1 && check_empty version2 then 0
  else if check_empty version1 || check_empty version2
      || version1 = some "NE" || version2 = some "NE" then 0
  else
    match version1, version2 with
    | some s1, some s2 => versionCore s1 s2
    | _, _ => 0

theorem posScore_bounds (a b : String) (w : ℚ) (hw : 0 ≤ w) :
    0 ≤ posScore a b w ∧ posScore a b w ≤ w := by
  unfold posScore
  simp only [qAbs_eq_abs, natMax_eq_max]
  split
  · exact ⟨hw, le_refl w⟩
  · split
    · split
      · exact ⟨le_refl 0, hw⟩
      · rename_i hmax
        have hpos : (0 : ℚ) < ((max (parseNat a) (parseNat b) : Nat) : ℚ) := by
          have h2 : 0 < max (parseNat a) (parseNat b) := Nat.pos_of_ne_zero hmax
          exact_mod_cast h2
        have habs : |((parseNat a : ℚ)) - ((parseNat b : ℚ))| ≤
            ((max (parseNat a) (parseNat b) : Nat) : ℚ) := by
          rw [abs_sub_le_iff]
          constructor
          · have h1 : ((parseNat a : ℚ)) ≤ ((max (parseNat a) (parseNat b) : Nat) : ℚ) := by
              exact_mod_cast Nat.le_max_left _ _
            have h2 : (0 : ℚ) ≤ (parseNat b : ℚ) := by positivity
            linarith
          · have h1 : ((parseNat b : ℚ)) ≤ ((max (parseNat a) (parseNat b) : Nat) : ℚ) := by
              exact_mod_cast Nat.le_max_right _ _
            have h2 : (0 : ℚ) ≤ (parseNat a : ℚ) := by positivity
            linarith
        have hr1 : |((parseNat a : ℚ)) - ((parseNat b : ℚ))| /
            ((max (parseNat a) (parseNat b) : Nat) : ℚ) ≤ 1 :=
          (div_le_one hpos).mpr habs
        have hr0 : 0 ≤ |((parseNat a : ℚ)) - ((parseNat b : ℚ))| /
            ((max (parseNat a) (parseNat b) : Nat) : ℚ) := by positivity
        constructor
        · exact mul_nonneg hr0 hw
        · calc |((parseNat a : ℚ)) - ((parseNat b : ℚ))| /
              ((max (parseNat a) (parseNat b) : Nat) : ℚ) * w ≤ 1 * w :=
                mul_le_mul_of_nonneg_right hr1 hw
            _ = w := one_mul w
    · obtain ⟨hj0, hj1⟩ := jaro_bounds (pyLower a) (pyLower b)
      constructor
      · exact mul_nonneg hj0 hw
      · calc jaro (pyLower a) (pyLower b) * w ≤ 1 * w :=
            mul_le_mul_of_nonneg_right hj1 hw
          _ = w := one_mul w

theorem fallbackWeights_nonneg (len : Nat) :
    0 ≤ (fallbackWeights len).1 ∧ 0 ≤ (fallbackWeights len).2.1 ∧
      0 ≤ (fallbackWeights len).2.2 := by
  unfold fallbackWeights
  split
  · norm_num
  · split <;> norm_num

theorem fallbackWeights_sum_le_one (len : Nat) :
    (fallbackWeights len).1 + (fallbackWeights len).2.1 +
      (fallbackWeights len).2.2 ≤ 1 := by
  unfold fallbackWeights
  split
  · norm_num
  · split <;> norm_num

theorem vfD0_bounds (p1 p2 : List String) (w : ℚ × ℚ × ℚ) (hw : 0 ≤ w.1) :
    0 ≤ vfD0 p1 p2 w ∧ vfD0 p1 p2 w ≤ w.1 := posScore_bounds _ _ _ hw

theorem vfD1_bounds (p1 p2 : List String) (w : ℚ × ℚ × ℚ) (len : Nat)
    (hw : 0 ≤ w.2.1) : 0 ≤ vfD1 p1 p2 w len ∧ vfD1 p1 p2 w len ≤ w.2.1 := by
  unfold vfD1
  split
  · exact posScore_bounds _ _ _ hw
  · exact ⟨le_refl 0, hw⟩

theorem vfD2_bounds (p1 p2 : List String) (w : ℚ × ℚ × ℚ) (len : Nat)
    (hw : 0 ≤ w.2.2) : 0 ≤ vfD2 p1 p2 w len ∧ vfD2 p1 p2 w len ≤ w.2.2 := by
  unfold vfD2
  split
  · exact posScore_bounds _ _ _ hw
  · exact ⟨le_refl 0, hw⟩

theorem versionFallback_bounds (v1 v2 : String) :
    0 ≤ versionFallback v1 v2 ∧ versionFallback v1 v2 ≤ 1 := by
  unfold versionFallback
  obtain ⟨hw0, hw1, hw2⟩ :=
    fallbackWeights_nonneg (natMin (pySplit v1 '.').length (pySplit v2 '.').length)
  have hsum :=
    fallbackWeights_sum_le_one (natMin (pySplit v1 '.').length (pySplit v2 '.').length)
  obtain ⟨h0a, h0b⟩ := vfD0_bounds (pySplit v1 '.') (pySplit v2 '.')
    (fallbackWeights (natMin (pySplit v1 '.').length (pySplit v2 '.').length)) hw0
  obtain ⟨h1a, h1b⟩ := vfD1_bounds (pySplit v1 '.') (pySplit v2 '.')
    (fallbackWeights (natMin (pySplit v1 '.').length (pySplit v2 '.').length))
    (natMin (natMin (pySplit v1 '.').length (pySplit v2 '.').length) 3) hw1
  obtain ⟨h2a, h2b⟩ := vfD2_bounds (pySplit v1 '.') (pySplit v2 '.')
    (fallbackWeights (natMin (pySplit v1 '.').length (pySplit v2 '.').length))
    (natMin (natMin (pySplit v1 '.').length (pySplit v2 '.').length) 3) hw2
  constructor
  · linarith
  · linarith

theorem versionCore_bounds (s1 s2 : String) :
    0 ≤ versionCore s1 s2 ∧ versionCore s1 s2 ≤ 1 := by
  unfold versionCore
  split
  · norm_num
  · split
    · norm_num
    · split
      · norm_num
      · split
        · norm_num
        · exact versionFallback_bounds _ _

theorem version_consistency_bounds (v1 v2 : Option String) :
    0 ≤ version_consistency v1 v2 ∧ version_consistency v1 v2 ≤ 1 := by
  unfold version_consistency
  split
  · norm_num
  · split
    · norm_num
    · split
      · exact versionCore_bounds _ _
      · norm_num

/-- Length of the longest common prefix of two char lists. -/
def commonPrefixLen : List Char → List Char → Nat
  | a :: as, b :: bs => if a = b then 1 + commonPrefixLen as bs else 0
  | _, _ => 0

/-- Length of the longest common contiguous substring.  The source (lines
131-150) computes it with the classic dp table `dp[i][j]` = length of the
longest common suffix of the prefixes `str1[:i]`, `str2[:j]`, and takes the
table maximum; that maximum equals the maximum over all pairs of start
positions of the common-prefix length of the two suffixes, which is the form
used here (every common substring starts at some pair of positions, and the
common prefix of a pair of suffixes is itself a common substring). -/
def lcsLen (l1 l2 : List Char) : Nat :=
  (List.range (l1.length + 1)).foldl (fun acc i =>
    (List.range (l2.length + 1)).foldl (fun acc2 j =>
      max acc2 (commonPrefixLen (l1.drop i) (l2.drop j))) acc) 0

/-- The final ratio of `longest_common_substring_consistency_score` (line
150): longest length over the longer decoded length, 0 if that is 0. -/
def lcsCore (s1 s2 : String) : ℚ :=
  if natMax (unquote s1).data.length (unquote s2).data.length = 0 then 0
  else (lcsLen (unquote s1).data (unquote s2).data : ℚ) /
    ((natMax (unquote s1).data.length (unquote s2).data.length : Nat) : ℚ)

/-- Source `longest_common_substring_consistency_score` (lines 121-151):
absence/`NE` guards, equality short-circuit on the raw values, then the
longest-common-substring ratio of the percent-decoded strings.  The
`isinstance` check of lines 128-129 only logs and is omitted. -/
def longest_common_substring_consistency_score (str1 str2 : Option String) : ℚ :=
  if (check_empty str1 && check_empty str2) || (str1 = some "" && str2 = some "") then 0
  else if str1 = some "NE" || str2 = some "NE" || check_empty str1 || check_empty str2
      || str1 = some "" || str2 = some "" then 0
  else if str1 = str2 then 1
  else lcsCore (str1.getD "") (str2.getD "")

/-- Source `text_consistency` (lines 255-263): absence/`NE` guards (note: no
empty-string guard in the second test, exactly as in the source), then
case-insensitive equality, else the Jaro similarity of the percent-decoded
lower-cased strings. -/
def text_consistency (text1 text2 : Option String) : ℚ :=
  if (check_empty text1 && check_empty text2) || (text1 = some "" && text2 = some "") then 0
  else if text1 = some "NE" || text2 = some "NE" || check_empty text1 || check_empty text2 then 0
  else if pyLower (text1.getD "") = pyLower (text2.getD "") then 1
  else jaro (pyLower (unquote (text1.getD ""))) (pyLower (unquote (text2.getD "")))

theorem commonPrefixLen_le_left (l1 l2 : List Char) :
    commonPrefixLen l1 l2 ≤ l1.length := by
  induction l1 generalizing l2 with
  | nil => cases l2 <;> simp [commonPrefixLen]
  | cons a as ih =>
    cases l2 with
    | nil => simp [commonPrefixLen]
    | cons b bs =>
      unfold commonPrefixLen
      split
      · have h2 := ih bs
        simp only [List.length_cons]
        omega
      · simp

theorem foldl_preserve_le {β : Type} (B : Nat) (g : Nat → β → Nat) (l : List β)
    (hg : ∀ a x, a ≤ B → x ∈ l → g a x ≤ B) :
    ∀ init, init ≤ B → l.foldl g init ≤ B := by
  induction l with
  | nil => intro init h; simpa using h
  | cons x xs ih =>
    intro init h
    simp only [List.foldl_cons]
    exact ih (fun a y ha hy => hg a y ha (List.mem_cons_of_mem _ hy)) _
      (hg init x h (List.mem_cons_self _ _))

theorem lcsLen_le_left (l1 l2 : List Char) : lcsLen l1 l2 ≤ l1.length := by
  unfold lcsLen
  apply foldl_preserve_le _ _ _ _ 0 (Nat.zero_le _)
  intro a i ha _
  apply foldl_preserve_le _ _ _ _ a ha
  intro a2 j ha2 _
  apply Nat.max_le.mpr
  refine ⟨ha2, ?_⟩
  calc commonPrefixLen (l1.drop i) (l2.drop j) ≤ (l1.drop i).length :=
      commonPrefixLen_le_left _ _
    _ ≤ l1.length := by simp

theorem lcsCore_bounds (s1 s2 : String) : 0 ≤ lcsCore s1 s2 ∧ lcsCore s1 s2 ≤ 1 := by
  unfold lcsCore
  simp only [natMax_eq_max]
  split
  · norm_num
  · rename_i hmax
    have hpos : (0 : ℚ) <
        ((max (unquote s1).data.length (unquote s2).data.length : Nat) : ℚ) := by
      have h2 : 0 < max (unquote s1).data.length (unquote s2).data.length :=
        Nat.pos_of_ne_zero hmax
      exact_mod_cast h2
    constructor
    · positivity
    · apply (div_le_one hpos).mpr
      have h3 : lcsLen (unquote s1).data (unquote s2).data ≤
          max (unquote s1).data.length (unquote s2).data.length :=
        le_trans (lcsLen_le_left _ _) (Nat.le_max_left _ _)
      exact_mod_cast h3

theorem longest_common_substring_consistency_score_bounds (v1 v2 : Option String) :
    0 ≤ longest_common_substring_consistency_score v1 v2 ∧
      longest_common_substring_consistency_score v1 v2 ≤ 1 := by
  unfold longest_common_substring_consistency_score
  split
  · norm_num
  · split
    · norm_num
    · split
      · norm_num
      · exact lcsCore_bounds _ _

theorem text_consistency_bounds (t1 t2 : Option String) :
    0 ≤ text_consistency t1 t2 ∧ text_consistency t1 t2 ≤ 1 := by
  unfold text_consistency
  split
  · norm_num
  · split
    · norm_num
    · split
      · norm_num
      · exact jaro_bounds _ _

/-- The polymorphic license value consumed by `deal_license` (lines 266-304):
Python `None`, a plain expression string, a list of license values, a dict
with an `expression` key (scancode shape), a dict with a `license` key whose
value is itself a dict (modelled as its key/value pairs in insertion order),
or a dict with a `license` key holding a list of entries each carrying
optional `id` and `name` fields (ort shapes). -/
inductive Lic where
  | pynone : Lic
  | str : String → Lic
  | listv : List Lic → Lic
  | dictExpr : String → Lic
  | dictLicMap : List (String × String) → Lic
  | dictLicList : List (Option String × Option String) → Lic

instance : Inhabited Lic := ⟨Lic.pynone⟩

mutual

/-- Structural equality of license values (Python `==` on the corresponding
dict/list/str values). -/
def licBeq : Lic → Lic → Bool
  | .pynone, .pynone => true
  | .str a, .str b => a = b
  | .listv a, .listv b => licListBeq a b
  | .dictExpr a, .dictExpr b => a = b
  | .dictLicMap a, .dictLicMap b => a = b
  | .dictLicList a, .dictLicList b => a = b
  | _, _ => false

/-- Elementwise structural equality of lists of license values. -/
def licListBeq : List Lic → List Lic → Bool
  | [], [] => true
  | x :: xs, y :: ys => licBeq x y && licListBeq xs ys
  | _, _ => false

end

/-- The absence test `check_empty` applied to a polymorphic license value: only the literal
strings `NONE`/`NOASSERTION` and Python `None` are classified absent. -/
def licCheckEmpty : Lic → Bool
  | .pynone => true
  | .str s => s = "NONE" || s = "NOASSERTION"
  | _ => false

/-- Python `==` between a license value and a string literal. -/
def licIsStr (l : Lic) (t : String) : Bool :=
  match l with
  | .str s => s = t
  | _ => false

/-- Split an expression on single spaces and, when more than one token
results, drop the first occurrence of `AND` and the first occurrence of `OR`
(Python `list.remove` removes only the first occurrence; lines 270-276). -/
def splitAndOr (s : String) : List String :=
  if (pySplit s ' ').length > 1
  then ((pySplit s ' ').erase "AND").erase "OR"
  else pySplit s ' ' 

mutual

/-- Source `deal_license` (lines 266-304): normalise a license value to a
token list.  The top guard returns `[]` for `NE`, the empty string and absent
values; list values are flattened recursively; the dict shapes extract either
the expression tokens or the `id`/`name` entries.  A dict with neither
recognised key and a non-str/list/dict value both only log (or raise) in the
source and do not occur in the data; they are not modelled. -/
def deal_license : Lic → List String
  | .pynone => []
  | .str s =>
    if s = "NE" || s = "" || s = "NONE" || s = "NOASSERTION" then []
    else splitAndOr s
  | .listv l => deal_license_list l
  | .dictExpr e => splitAndOr e
  | .dictLicMap entries =>
    (entries.filter (fun p => p.1 = "id" || p.1 = "name")).map Prod.snd
  | .dictLicList entries =>
    entries.filterMap (fun p => match p.1 with | some i => some i | none => p.2)

/-- Flattening of a list of license values (the `elif isinstance(license,
list)` branch of `deal_license`, lines 277-281). -/
def deal_license_list : List Lic → List String
  | [] => []
  | x :: xs => deal_license x ++ deal_license_list xs

end

/-- The double loop of `license_consistency` (lines 324-326): for every pair
of tokens add 1 when they are equal. -/
def licPairScore (l1 l2 : List String) : ℚ :=
  l1.foldl (fun acc a =>
    l2.foldl (fun acc2 b => acc2 + (if a = b then 1 else 0)) acc) 0

/-- Source `license_consistency` (lines 307-328): absence/`NE` guards,
structural equality short-circuit, token normalisation through
`deal_license`, then the pairwise overlap count divided by the larger token
count.  The `isinstance` check of lines 319-320 only logs and is omitted. -/
def license_consistency (license1 license2 : Lic) : ℚ :=
  if (licCheckEmpty license1 && licCheckEmpty license2)
      || (licIsStr license1 "" && licIsStr license2 "") then 0
  else if licIsStr license1 "NE" || licIsStr license2 "NE" || licCheckEmpty license1
      || licCheckEmpty license2 || licIsStr license1 "" || licIsStr license2 "" then 0
  else if licBeq license1 license2 then 1
  else if (deal_license license1).length = 0 || (deal_license license2).length = 0 then 0
  else licPairScore (deal_license license1) (deal_license license2) /
    ((natMax (deal_license license1).length (deal_license license2).length : Nat) : ℚ)

/-- Number of elements of `l` equal to `a`. -/
def countEq (a : String) (l : List String) : Nat := l.countP (fun b => a = b)

theorem countEq_le_one_of_nodup (a : String) (l : List String) (h : l.Nodup) :
    countEq a l ≤ 1 := by
  induction l with
  | nil => simp [countEq]
  | cons b bs ih =>
    obtain ⟨hb, hbs⟩ := List.nodup_cons.mp h
    have hih := ih hbs
    unfold countEq at *
    rw [List.countP_cons]
    rcases eq_or_ne a b with rfl | hne
    · have hz : bs.countP (fun b2 => decide (a = b2)) = 0 := by
        apply List.countP_eq_zero.mpr
        intro x hx
        simp only [decide_eq_true_eq]
        intro hax
        exact hb (hax ▸ hx)
      simp [hz]
    · have hd : (decide (a = b)) = false := by simp [hne]
      simp only [hd]
      simpa using hih

theorem lic_inner_sum (a : String) (l2 : List String) :
    ∀ acc : ℚ, l2.foldl (fun acc2 b => acc2 + (if a = b then 1 else 0)) acc =
      acc + (countEq a l2 : ℚ) := by
  induction l2 with
  | nil => intro acc; simp [countEq]
  | cons b bs ih =>
    intro acc
    simp only [List.foldl_cons, ih, countEq, List.countP_cons]
    rcases eq_or_ne a b with rfl | hne
    · simp; ring
    · simp [hne]

theorem licPairScore_nonneg (l1 l2 : List String) : 0 ≤ licPairScore l1 l2 := by
  unfold licPairScore
  suffices h : ∀ acc : ℚ, acc ≤ l1.foldl (fun acc a =>
      l2.foldl (fun acc2 b => acc2 + (if a = b then 1 else 0)) acc) acc from h 0
  induction l1 with
  | nil => intro acc; simp
  | cons a as ih =>
    intro acc
    simp only [List.foldl_cons]
    have h1 := lic_inner_sum a l2 acc
    have hc : (0 : ℚ) ≤ (countEq a l2 : ℚ) := by positivity
    calc acc ≤ l2.foldl (fun acc2 b => acc2 + (if a = b then 1 else 0)) acc := by
          rw [h1]; linarith
      _ ≤ _ := ih _

theorem licPairScore_le_of_nodup (l1 l2 : List String) (h : l2.Nodup) :
    licPairScore l1 l2 ≤ (l1.length : ℚ) := by
  unfold licPairScore
  suffices hs : ∀ acc : ℚ, l1.foldl (fun acc a =>
      l2.foldl (fun acc2 b => acc2 + (if a = b then 1 else 0)) acc) acc ≤
      acc + (l1.length : ℚ) by
    have h2 := hs 0
    simpa using h2
  induction l1 with
  | nil => intro acc; simp
  | cons a as ih =>
    intro acc
    simp only [List.foldl_cons, List.length_cons]
    push_cast
    have h1 := lic_inner_sum a l2 acc
    have hcq : (countEq a l2 : ℚ) ≤ 1 := by
      exact_mod_cast countEq_le_one_of_nodup a l2 h
    calc as.foldl (fun acc a =>
          l2.foldl (fun acc2 b => acc2 + (if a = b then 1 else 0)) acc)
          (l2.foldl (fun acc2 b => acc2 + (if a = b then 1 else 0)) acc)
        ≤ l2.foldl (fun acc2 b => acc2 + (if a = b then 1 else 0)) acc +
            (as.length : ℚ) := ih _
      _ ≤ acc + ((as.length : ℚ) + 1) := by rw [h1]; linarith

theorem license_consistency_nonneg (l1 l2 : Lic) : 0 ≤ license_consistency l1 l2 := by
  unfold license_consistency
  simp only [natMax_eq_max]
  split
  · norm_num
  · split
    · norm_num
    · split
      · norm_num
      · split
        · norm_num
        · apply div_nonneg (licPairScore_nonneg _ _)
          positivity

theorem license_consistency_le_one_of_nodup (l1 l2 : Lic)
    (h : (deal_license l2).Nodup) : license_consistency l1 l2 ≤ 1 := by
  unfold license_consistency
  simp only [natMax_eq_max]
  split
  · norm_num
  · split
    · norm_num
    · split
      · norm_num
      · split
        · norm_num
        · rename_i hne
          have h1pos : 0 < (deal_license l1).length := by
            rcases Nat.eq_zero_or_pos (deal_license l1).length with hz | hp
            · exact absurd (by simp [hz]) hne
            · exact hp
          have hmaxpos : (0 : ℚ) <
              ((max (deal_license l1).length (deal_license l2).length : Nat) : ℚ) := by
            have h2 : 0 < max (deal_license l1).length (deal_license l2).length :=
              lt_of_lt_of_le h1pos (Nat.le_max_left _ _)
            exact_mod_cast h2
          apply (div_le_one hmaxpos).mpr
          calc licPairScore (deal_license l1) (deal_license l2) ≤
              ((deal_license l1).length : ℚ) := licPairScore_le_of_nodup _ _ h
            _ ≤ _ := by
              exact_mod_cast Nat.le_max_left (deal_license l1).length
                (deal_license l2).length

/-- Split a char list at the first occurrence of `sep`: `some (before, after)`
when present (Python `str.partition`). -/
def partAux (sep : Char) : List Char → Option (List Char × List Char)
  | [] => none
  | c :: rest =>
    if c = sep then some ([], rest)
    else (partAux sep rest).map (fun p => (c :: p.1, p.2))

/-- Split a char list at the last occurrence of `sep`: `(before, some after)`
when present, `(l, none)` otherwise (Python `str.rpartition`). -/
def splitLast (l : List Char) (sep : Char) : List Char × Option (List Char) :=
  match partAux sep l.reverse with
  | some (a, b) => (b.reverse, some a.reverse)
  | none => (l, none)

/-- Normalise an optional char-list component: an empty component counts as
absent (the packageurl library normalises empty parts to `None`). -/
def optNorm (o : Option (List Char)) : Option String :=
  match o with
  | some [] => none
  | some l => some ⟨l⟩
  | none => none

/-- The six typed components of a decomposed package identifier, in the order
of `PackageURL.to_dict()`: type, namespace, name, version, qualifiers,
subpath. -/
structure PurlDict where
  ptype : String
  pnamespace : Option String
  pname : String
  pversion : Option String
  pqualifiers : Option String
  psubpath : Option String

/-- Models `PackageURL.from_string` of the packageurl library: require the
`pkg:` scheme, strip leading slashes, split the subpath at the last `#`, the
qualifiers at the last `?`, the type at the first `/`, the version at the
last `@` and the namespace from the name at the last `/`; a missing type or
name makes the string unparsable (`ValueError` in the library, `none` here).
Component-level percent-decoding and the rendering of the qualifier dict are
not modelled: no claim depends on them, and the score bound below holds for
every decomposition. -/
def purlFromString (s : String) : Option PurlDict :=
  if pyStrip s = "" then none
  else
    match partAux ':' s.data with
    | none => none
    | some (scheme, rem0) =>
      if scheme ≠ "pkg".data then none
      else
        let rem1 := (pyStrip ⟨rem0⟩).data.dropWhile (fun c => c = '/')
        let (rem2, subp) := splitLast rem1 '#'
        let (rem3, quals) := splitLast rem2 '?'
        match partAux '/' rem3 with
        | none => none
        | some (ty, rest0) =>
          if ty.isEmpty then none
          else
            let (path, ver) := splitLast rest0 '@'
            let (ns, nm) := splitLast path '/'
            match nm with
            | some nmc =>
              if nmc.isEmpty then none
              else some ⟨pyLower ⟨ty⟩, optNorm (some ns), ⟨nmc⟩,
                optNorm ver, optNorm quals, optNorm subp⟩
            | none =>
              if ns.isEmpty then none
              else some ⟨pyLower ⟨ty⟩, none, ⟨ns⟩,
                optNorm ver, optNorm quals, optNorm subp⟩

/-- Python `str(value).lower()` with `''` for an absent component (line 113). -/
def optLowerStr (v : Option String) : String :=
  match v with
  | some s => pyLower s
  | none => ""

/-- The per-component average of `purl_consistency` (lines 107-114): the
version component is compared with `version_consistency` (with `''` for an
absent side), every other component with the Jaro similarity of the
lower-cased renderings, and the sum is divided by the number of keys (6). -/
def purlDictScore (a b : PurlDict) : ℚ :=
  (jaro (pyLower a.ptype) (pyLower b.ptype)
   + jaro (optLowerStr a.pnamespace) (optLowerStr b.pnamespace)
   + jaro (pyLower a.pname) (pyLower b.pname)
   + version_consistency (some (a.pversion.getD "")) (some (b.pversion.getD ""))
   + jaro (optLowerStr a.pqualifiers) (optLowerStr b.pqualifiers)
   + jaro (optLowerStr a.psubpath) (optLowerStr b.psubpath)) / 6

/-- Python truthiness of an optional string: `None` and `''` are falsy. -/
def truthy : Option String → Bool
  | some s => s ≠ ""
  | none => false

/-- Source `purl_consistency` (lines 94-118).  Note the order of the source:
the case-insensitive equality of two truthy values is tested BEFORE the
`NE`/absence guards, then both identifiers are decomposed; if either fails to
decompose the result falls back to the Jaro similarity of the whole strings,
otherwise the per-component average is returned.  The inner `try/except` of
lines 108-117 cannot fire in this model (all component values are strings). -/
def purl_consistency (p1 p2 : Option String) : ℚ :=
  if truthy p1 = true ∧ truthy p2 = true ∧
      pyLower (p1.getD "") = pyLower (p2.getD "") then 1
  else if p1 = some "NE" || p2 = some "NE" then 0
  else if check_empty p1 || check_empty p2 then 0
  else
    match purlFromString (p1.getD ""), purlFromString (p2.getD "") with
    | some q1, some q2 => purlDictScore q1 q2
    | _, _ => jaro (pyLower (p1.getD "")) (pyLower (p2.getD ""))

theorem purlDictScore_bounds (a b : PurlDict) :
    0 ≤ purlDictScore a b ∧ purlDictScore a b ≤ 1 := by
  unfold purlDictScore
  obtain ⟨h1a, h1b⟩ := jaro_bounds (pyLower a.ptype) (pyLower b.ptype)
  obtain ⟨h2a, h2b⟩ := jaro_bounds (optLowerStr a.pnamespace) (optLowerStr b.pnamespace)
  obtain ⟨h3a, h3b⟩ := jaro_bounds (pyLower a.pname) (pyLower b.pname)
  obtain ⟨h4a, h4b⟩ := version_consistency_bounds (some (a.pversion.getD ""))
    (some (b.pversion.getD ""))
  obtain ⟨h5a, h5b⟩ := jaro_bounds (optLowerStr a.pqualifiers) (optLowerStr b.pqualifiers)
  obtain ⟨h6a, h6b⟩ := jaro_bounds (optLowerStr a.psubpath) (optLowerStr b.psubpath)
  constructor
  · apply div_nonneg _ (by norm_num)
    linarith
  · rw [div_le_one (by norm_num)]
    linarith

theorem purl_consistency_bounds (p1 p2 : Option String) :
    0 ≤ purl_consistency p1 p2 ∧ purl_consistency p1 p2 ≤ 1 := by
  unfold purl_consistency
  split
  · norm_num
  · split
    · norm_num
    · split
      · norm_num
      · split
        · exact purlDictScore_bounds _ _
        · exact jaro_bounds _ _

/-- The polymorphic `packageVerificationCode` value consumed by `deal_PVC`
(lines 409-422): Python `None`, a string, a list of strings, or a dict whose
`packageVerificationCodeValue` entry is modelled by the `Option` payload
(`none` = key missing, which the source logs and maps to `None`). -/
inductive PVC where
  | pynone : PVC
  | str : String → PVC
  | listv : List String → PVC
  | dictv : Option String → PVC
  deriving DecidableEq, Inhabited

/-- Source `deal_PVC` (lines 409-422): `NE`/absent/empty map to `None`, a
string is returned unchanged, a one-element list yields its element, a dict
yields its `packageVerificationCodeValue`, and everything else logs an error
and yields `None`. -/
def deal_PVC (v : PVC) : Option String :=
  if v = .str "NE" || v = .pynone || v = .str "NONE" || v = .str "NOASSERTION"
      || v = .str "" then none
  else
    match v with
    | .str s => some s
    | .listv l => if l.length = 1 then some (l.getD 0 "") else none
    | .dictv d => d
    | .pynone => none

/-- One element of an `externalRefs` list: a plain string (skipped by the
source) or a reference record with an optional `referenceType` (`none` = key
missing, defaulted to `NE` by `e.get`) and a `referenceLocator`. -/
inductive ExtRefEntry where
  | strv : String → ExtRefEntry
  | ref : Option String → String → ExtRefEntry
  deriving DecidableEq, Inhabited

/-- The collection loop of `external_ref_proc` (lines 398-406): locators whose
reference type contains `cpe` go to the first list, those containing `purl`
to the second. -/
def extRefLoop : List ExtRefEntry → List String × List String
  | [] => ([], [])
  | .strv _ :: rest => extRefLoop rest
  | .ref rt loc :: rest =>
    let r := extRefLoop rest
    if strContains (rt.getD "NE") "cpe" then (loc :: r.1, r.2)
    else if strContains (rt.getD "NE") "purl" then (r.1, loc :: r.2)
    else r

/-- Source `external_ref_proc` (lines 392-406): a string-valued `externalRefs`
logs an error and yields two empty lists; otherwise the entries are scanned
into cpe and purl locator lists. -/
def external_ref_proc : Sum String (List ExtRefEntry) → List String × List String
  | .inl _ => ([], [])
  | .inr l => extRefLoop l

/-- An entity record (a package/component dict).  Fields carry the values the
source reads; `version` is `Option (Option String)` because
`best_triple_match` distinguishes a missing `version` KEY (outer `none`,
`'version' in pkg` false) from a present key holding `None`; for every other
field the source's `.get`/index makes the key-missing and value-`None` cases
observationally equal, so a single `Option` (or the plain payload) suffices. -/
structure Pkg where
  name : String
  version : Option (Option String) := none
  versionInfo : Option String := none
  purl : Option String := none
  author : Option String := none
  ptype : Option String := none
  cpe : Option String := none
  licenses : Lic := .pynone
  originator : Option String := none
  supplier : Option String := none
  copyrightText : Option String := none
  packageVerificationCode : PVC := .pynone
  externalRefs : Sum String (List ExtRefEntry) := .inr []
  downloadLocation : Option String := none
  licenseConcluded : Lic := .pynone
  licenseDeclared : Lic := .pynone

instance : Inhabited Pkg := ⟨{ name := "" }⟩

/-- The version lookup of `best_triple_match` (lines 66-67):
`pkg.get('version') if 'version' in pkg else pkg.get('versionInfo')`. -/
def pkgMatchVersion (p : Pkg) : Option String :=
  match p.version with
  | some v => v
  | none => p.versionInfo

/-- The two supported schema standards. -/
inductive Standard where
  | spdx
  | cdx
  deriving DecidableEq

/-- All cross-pair purl scores of the spdx branch of `best_triple_match`
(lines 76-80), in loop order. -/
def purlPairScores (l1 l2 : List String) : List ℚ :=
  l1.flatMap (fun a => l2.map (fun b => purl_consistency (some a) (some b)))

/-- Python `max` over a possibly empty list, defaulting to 0 (line 81). -/
def maxOrZero : List ℚ → ℚ
  | [] => 0
  | x :: xs => xs.foldl max x

/-- The triple score of a name-matching candidate (lines 66-82): a name score
of 1 plus the version score plus the identifier score (the purl field for the
cdx standard; the maximum cross-pair purl score of the external references,
or 0 when there is no pair, for the spdx standard). -/
def tripleScore (std : Standard) (p1 p2 : Pkg) : ℚ :=
  let vs := version_consistency (pkgMatchVersion p1) (pkgMatchVersion p2)
  let ps :=
    match std with
    | .cdx => purl_consistency p1.purl p2.purl
    | .spdx =>
      maxOrZero (purlPairScores (external_ref_proc p1.externalRefs).2
        (external_ref_proc p2.externalRefs).2)
  1 + vs + ps

/-- The candidate scan of `best_triple_match` (lines 61-87): the running best
score starts at -1 with no key; each candidate whose name score is exactly 1
is scored, a strictly greater triple score replaces the best, and the scan
stops as soon as the best score reaches 3.0. -/
def btmLoop (std : Standard) (p1 : Pkg) :
    List (String × Pkg) → ℚ → Option String → ℚ × Option String
  | [], b, bk => (b, bk)
  | (k2, p2) :: rest, b, bk =>
    if compareName p1.name p2.name = 1 then
      let t := tripleScore std p1 p2
      let b2 := if t > b then t else b
      let bk2 := if t > b then some k2 else bk
      if b2 = 3 then (b2, bk2) else btmLoop std p1 rest b2 bk2
    else btmLoop std p1 rest b bk

/-- Source `best_triple_match` (lines 60-91): scan the candidates, then
return the best key and score when the best score reaches the threshold and
`(None, 0)` otherwise. -/
def best_triple_match (p1 : Pkg) (pkgs2 : List (String × Pkg)) (threshold : ℚ)
    (standard : Standard) : Option String × ℚ :=
  if (btmLoop standard p1 pkgs2 (-1) none).1 ≥ threshold
  then ((btmLoop standard p1 pkgs2 (-1) none).2, (btmLoop standard p1 pkgs2 (-1) none).1)
  else (none, 0)

/-- The name-matching candidates of a scan, with their triple scores, in
iteration order. -/
def scoredList (std : Standard) (p1 : Pkg) (pkgs2 : List (String × Pkg)) :
    List (String × ℚ) :=
  pkgs2.filterMap (fun q =>
    if compareName p1.name q.2.name = 1 then some (q.1, tripleScore std p1 q.2)
    else none)

/-- The best-candidate scan without the early stop: keep the first strictly
greater score. -/
def scanN : List (String × ℚ) → ℚ → Option String → ℚ × Option String
  | [], b, bk => (b, bk)
  | (k, s) :: rest, b, bk =>
    if s > b then scanN rest s (some k) else scanN rest b bk

theorem le_foldl_max (l : List (String × ℚ)) :
    ∀ b : ℚ, b ≤ l.foldl (fun a q => max a q.2) b := by
  induction l with
  | nil => intro b; simp
  | cons q r ih =>
    intro b
    simp only [List.foldl_cons]
    exact le_trans (le_max_left b q.2) (ih _)

theorem foldl_max_le_q (l : List ℚ) (B : ℚ) (h : ∀ x ∈ l, x ≤ B) :
    ∀ b : ℚ, b ≤ B → l.foldl max b ≤ B := by
  induction l with
  | nil => intro b hb; simpa using hb
  | cons x xs ih =>
    intro b hb
    simp only [List.foldl_cons]
    exact ih (fun y hy => h y (List.mem_cons_of_mem _ hy)) _
      (max_le hb (h x (List.mem_cons_self _ _)))

theorem foldl_max_nonneg_q (l : List ℚ) :
    ∀ b : ℚ, 0 ≤ b → 0 ≤ l.foldl max b := by
  induction l with
  | nil => intro b hb; simpa using hb
  | cons x xs ih =>
    intro b hb
    simp only [List.foldl_cons]
    exact ih _ (le_trans hb (le_max_left _ _))

theorem maxOrZero_bounds (l : List ℚ) (h : ∀ x ∈ l, 0 ≤ x ∧ x ≤ 1) :
    0 ≤ maxOrZero l ∧ maxOrZero l ≤ 1 := by
  cases l with
  | nil => simp [maxOrZero]
  | cons x xs =>
    unfold maxOrZero
    constructor
    · exact foldl_max_nonneg_q xs x (h x (List.mem_cons_self _ _)).1
    · exact foldl_max_le_q xs 1 (fun y hy => (h y (List.mem_cons_of_mem _ hy)).2)
        x (h x (List.mem_cons_self _ _)).2

theorem purlPairScores_mem_bounds (l1 l2 : List String) (x : ℚ)
    (hx : x ∈ purlPairScores l1 l2) : 0 ≤ x ∧ x ≤ 1 := by
  unfold purlPairScores at hx
  rw [List.mem_flatMap] at hx
  obtain ⟨a, _, hx2⟩ := hx
  rw [List.mem_map] at hx2
  obtain ⟨b, _, rfl⟩ := hx2
  exact purl_consistency_bounds _ _

theorem tripleScore_bounds (std : Standard) (p1 p2 : Pkg) :
    1 ≤ tripleScore std p1 p2 ∧ tripleScore std p1 p2 ≤ 3 := by
  unfold tripleScore
  obtain ⟨hv0, hv1⟩ := version_consistency_bounds (pkgMatchVersion p1) (pkgMatchVersion p2)
  cases std with
  | cdx =>
    obtain ⟨hp0, hp1⟩ := purl_consistency_bounds p1.purl p2.purl
    constructor <;> simp only [] <;> linarith
  | spdx =>
    obtain ⟨hp0, hp1⟩ := maxOrZero_bounds _ (purlPairScores_mem_bounds
      (external_ref_proc p1.externalRefs).2 (external_ref_proc p2.externalRefs).2)
    constructor <;> simp only [] <;> linarith

theorem scoredList_mem_bounds (std : Standard) (p1 : Pkg)
    (pkgs2 : List (String × Pkg)) (q : String × ℚ)
    (hq : q ∈ scoredList std p1 pkgs2) : 1 ≤ q.2 ∧ q.2 ≤ 3 := by
  unfold scoredList at hq
  rw [List.mem_filterMap] at hq
  obtain ⟨p, _, hp⟩ := hq
  by_cases hc : compareName p1.name p.2.name = 1
  · rw [if_pos hc] at hp
    cases hp
    exact tripleScore_bounds std p1 p.2
  · rw [if_neg hc] at hp
    exact absurd hp (by simp)

theorem scanN_of_all_le (l : List (String × ℚ)) (b : ℚ)
    (h : ∀ q ∈ l, q.2 ≤ b) : ∀ bk, scanN l b bk = (b, bk) := by
  induction l with
  | nil => intro bk; simp [scanN]
  | cons q r ih =>
    intro bk
    unfold scanN
    rw [if_neg (not_lt.mpr (h q (List.mem_cons_self _ _)))]
    exact ih (fun y hy => h y (List.mem_cons_of_mem _ hy)) bk

theorem btmLoop_eq_scanN (std : Standard) (p1 : Pkg) :
    ∀ (pkgs2 : List (String × Pkg)) (b : ℚ) (bk : Option String), b ≤ 3 →
      btmLoop std p1 pkgs2 b bk = scanN (scoredList std p1 pkgs2) b bk := by
  intro pkgs2
  induction pkgs2 with
  | nil => intro b bk _; simp [btmLoop, scoredList, scanN]
  | cons q r ih =>
    intro b bk hb
    obtain ⟨k2, p2⟩ := q
    by_cases hc : compareName p1.name p2.name = 1
    · have hscored : scoredList std p1 ((k2, p2) :: r) =
          (k2, tripleScore std p1 p2) :: scoredList std p1 r := by
        unfold scoredList
        rw [List.filterMap_cons]
        simp [hc]
      rw [hscored]
      unfold btmLoop scanN
      rw [if_pos hc]
      set t := tripleScore std p1 p2 with ht
      have htb := tripleScore_bounds std p1 p2
      by_cases hgt : t > b
      · simp only [if_pos hgt]
        by_cases h3 : t = 3
        · rw [if_pos h3, h3]
          rw [scanN_of_all_le _ 3 (fun y hy => (scoredList_mem_bounds std p1 r y hy).2)]
        · rw [if_neg h3]
          exact ih t (some k2) (ht ▸ htb.2)
      · simp only [if_neg hgt]
        by_cases h3 : b = 3
        · rw [if_pos h3, h3]
          rw [scanN_of_all_le _ 3 (fun y hy => (scoredList_mem_bounds std p1 r y hy).2)]
        · rw [if_neg h3]
          exact ih b bk hb
    · have hscored : scoredList std p1 ((k2, p2) :: r) = scoredList std p1 r := by
        unfold scoredList
        rw [List.filterMap_cons]
        simp [hc]
      rw [hscored]
      unfold btmLoop
      rw [if_neg hc]
      exact ih b bk hb

theorem scanN_spec (l : List (String × ℚ)) :
    ∀ (b : ℚ) (bk : Option String),
      (scanN l b bk).1 = l.foldl (fun a q => max a q.2) b ∧
      (scanN l b bk).2 =
        (if l.foldl (fun a q => max a q.2) b > b
         then (l.find? (fun q =>
            decide (q.2 = l.foldl (fun a q2 => max a q2.2) b))).map Prod.fst
         else bk) := by
  induction l with
  | nil =>
    intro b bk
    simp [scanN]
  | cons q r ih =>
    intro b bk
    obtain ⟨k, s⟩ := q
    unfold scanN
    by_cases hsb : s > b
    · rw [if_pos hsb]
      obtain ⟨ih1, ih2⟩ := ih s (some k)
      have hmax : max b s = s := max_eq_right (le_of_lt hsb)
      have hMfull : ((k, s) :: r).foldl (fun a q => max a q.2) b =
          r.foldl (fun a q => max a q.2) s := by
        simp only [List.foldl_cons]; rw [hmax]
      have hsM : s ≤ r.foldl (fun a q => max a q.2) s := le_foldl_max r s
      have hbM : r.foldl (fun a q => max a q.2) s > b := lt_of_lt_of_le hsb hsM
      constructor
      · rw [ih1, hMfull]
      · rw [ih2, hMfull, if_pos hbM]
        by_cases hMs : r.foldl (fun a q => max a q.2) s > s
        · rw [if_pos hMs]
          rw [List.find?_cons_of_neg]
          simp only [decide_eq_true_eq]
          exact ne_of_lt hMs
        · have hMeq : r.foldl (fun a q => max a q.2) s = s :=
            le_antisymm (not_lt.mp hMs) hsM
          rw [if_neg hMs]
          rw [List.find?_cons_of_pos]
          · rfl
          · simp only [decide_eq_true_eq]
            exact hMeq.symm
    · rw [if_neg hsb]
      obtain ⟨ih1, ih2⟩ := ih b bk
      have hmax : max b s = b := max_eq_left (not_lt.mp hsb)
      have hMfull : ((k, s) :: r).foldl (fun a q => max a q.2) b =
          r.foldl (fun a q => max a q.2) b := by
        simp only [List.foldl_cons]; rw [hmax]
      constructor
      · rw [ih1, hMfull]
      · rw [ih2, hMfull]
        by_cases hMb : r.foldl (fun a q => max a q.2) b > b
        · rw [if_pos hMb, if_pos hMb]
          rw [List.find?_cons_of_neg]
          simp only [decide_eq_true_eq]
          exact ne_of_lt (lt_of_le_of_lt (not_lt.mp hsb) hMb)
        · rw [if_neg hMb, if_neg hMb]

/-- One checksum record: algorithm and value (the value may be an absent
marker handled by `equal_cmp`). -/
structure Checksum where
  algorithm : String
  checksumValue : Option String
  deriving DecidableEq, Inhabited

/-- One file record of an spdx document. -/
structure SpdxFile where
  name : String
  checksums : List Checksum
  deriving DecidableEq, Inhabited

/-- The cpe aggregation of the spdx package comparison (lines 536-546): the
running pair `(score, neg)`; a pairwise score of -1 would add 1 to the score
and -1 to the neg accumulator (dead, since the lcs score is in [0,1], but
kept as in the source). -/
def cpePairAgg (l1 l2 : List String) : ℚ × ℚ :=
  l1.foldl (fun acc c1 => l2.foldl (fun a2 c2 =>
    if longest_common_substring_consistency_score (some c1) (some c2) = -1
    then (a2.1 + 1, a2.2 - 1)
    else (a2.1 + longest_common_substring_consistency_score (some c1) (some c2),
      a2.2)) acc) (0, 0)

/-- The purl aggregation of the spdx package comparison (lines 547-556). -/
def purlPairAgg (l1 l2 : List String) : ℚ × ℚ :=
  l1.foldl (fun acc c1 => l2.foldl (fun a2 c2 =>
    if purl_consistency (some c1) (some c2) = -1
    then (a2.1 + 1, a2.2 - 1)
    else (a2.1 + purl_consistency (some c1) (some c2), a2.2)) acc) (0, 0)

/-- Normalised cpe score (line 546): sum over the larger list size, 0 when
either side is empty. -/
def spdxCpeScore (l1 l2 : List String) : ℚ :=
  if natMax l1.length l2.length ≠ 0
  then (cpePairAgg l1 l2).1 / ((natMax l1.length l2.length : Nat) : ℚ) else 0

/-- Normalised purl score (line 556). -/
def spdxPurlScore (l1 l2 : List String) : ℚ :=
  if natMax l1.length l2.length ≠ 0
  then (purlPairAgg l1 l2).1 / ((natMax l1.length l2.length : Nat) : ℚ) else 0

/-- The ten-component spdx package score vector (lines 528-561), in order:
originator, supplier, copyright, version, verification code, cpe, purl,
download location, concluded license, declared license. -/
def spdxPkgVector (p1 p2 : Pkg) : List ℚ :=
  [ text_consistency p1.originator p2.originator,
    text_consistency p1.supplier p2.supplier,
    text_consistency p1.copyrightText p2.copyrightText,
    version_consistency p1.versionInfo p2.versionInfo,
    equal_cmp (deal_PVC p1.packageVerificationCode) (deal_PVC p2.packageVerificationCode),
    spdxCpeScore (external_ref_proc p1.externalRefs).1 (external_ref_proc p2.externalRefs).1,
    spdxPurlScore (external_ref_proc p1.externalRefs).2 (external_ref_proc p2.externalRefs).2,
    longest_common_substring_consistency_score p1.downloadLocation p2.downloadLocation,
    license_consistency p1.licenseConcluded p2.licenseConcluded,
    license_consistency p1.licenseDeclared p2.licenseDeclared ]

/-- The anomaly fold of lines 562-568: when any component of the vector or of
the neg accumulators is negative, the absolute values are recorded (the CSV
side channel is out of scope). -/
def spdxPkgAdjusted (p1 p2 : Pkg) : List ℚ :=
  if (spdxPkgVector p1 p2 ++
      [(cpePairAgg (external_ref_proc p1.externalRefs).1
          (external_ref_proc p2.externalRefs).1).2,
       (purlPairAgg (external_ref_proc p1.externalRefs).2
          (external_ref_proc p2.externalRefs).2).2]).any (fun x => decide (x < 0))
  then (spdxPkgVector p1 p2).map (fun x => qAbs x)
  else spdxPkgVector p1 p2

/-- The spdx package matching loop (lines 517-568): each source package is
matched against the full candidate collection; a match records the key and
the (possibly sign-corrected) score vector. -/
def spdxPkgLoop (pkgs2 : List (String × Pkg)) (th : ℚ) :
    List (String × Pkg) → List String × List (List ℚ)
  | [] => ([], [])
  | (k1, p1) :: rest =>
    match (best_triple_match p1 pkgs2 th .spdx).1 with
    | some k2 =>
      let p2 := (pkgs2.lookup k2).getD default
      let r := spdxPkgLoop pkgs2 th rest
      (k1 :: r.1, spdxPkgAdjusted p1 p2 :: r.2)
    | none => spdxPkgLoop pkgs2 th rest

/-- The top-level metadata record of a cdx document. -/
structure CdxMeta where
  name_com : Option String := none
  version_com : Option String := none

/-- The content of one parsed extraction-output file: the spdx collections
(`packages`, `files`) and the cdx collections (`metadata`, `components`).
`none` models the `NE` marker ("collection not evaluated for this schema");
a real file populates the fields of its own schema family. -/
structure FileData where
  packages : Option (List (String × Pkg)) := none
  files : Option (List (String × SpdxFile)) := none
  metadata : Option CdxMeta := none
  components : Option (List (String × Pkg)) := none

/-- The result record of `spdx_consistency`.  `pkg_info` entries are either a
whole score vector (`Sum.inr`, the normal case) or a bare number (`Sum.inl`,
produced only by the missing-packages branch of lines 511-515, which assigns
the FLAT list `[0]*10`).  `basic_info` (a label string) is plumbing and
omitted. -/
structure SpdxScores where
  repo_info : List ℚ
  pkg_info : List (Sum ℚ (List ℚ))
  files_info : List (List ℚ)
  statistic_info : List Nat
  deriving DecidableEq

/-- Source `spdx_consistency` (lines 425-575) on two loaded documents (file
loading, label parsing and CSV output are out-of-scope plumbing).

The file section never runs: `files_flag` is initialised `False` at line 438
(unlike its sibling `pkg_flag`, initialised `True` at line 432), is set to
`False` again at line 440 when a collection is the `NE` marker, and is never
assigned `True` — the `else` at lines 441-442 only binds the key views.  The
whole file-comparison block guarded by `if files_flag:` (lines 453-505,
including the 2000-entry cap and the per-file name matching and checksum
scoring) is therefore unreachable dead code, and the `if not files_flag:`
branch (lines 507-509) always runs: the file statistics are `[0, 0, 0]` and
`files_info` is `[[0]]` for every input, regardless of the file collections.

A missing package collection on either side then yields flat zero filler for
`repo_info`/`pkg_info` and zero statistics (lines 511-515); otherwise the
package loop runs and empty collections are padded with a single zero vector
(lines 569-572).  `repo_info` is never populated elsewhere, so it is always
the zero vector of length 11. -/
def spdx_consistency (d1 d2 : FileData) (th : ℚ) : SpdxScores :=
  match d1.packages, d2.packages with
  | some p1s, some p2s =>
    let r := spdxPkgLoop p2s th p1s
    { repo_info := List.replicate 11 0,
      pkg_info := (if r.2 = [] then [List.replicate 10 0] else r.2).map Sum.inr,
      files_info := [[0]],
      statistic_info := [0, 0, 0] ++ [p1s.length, p2s.length, r.1.length] }
  | _, _ =>
    { repo_info := List.replicate 11 0,
      pkg_info := List.replicate 10 (Sum.inl 0),
      files_info := [[0]],
      statistic_info := [0, 0, 0] ++ [0, 0, 0] }

/-- The repo-name score of `cdx_consistency` (lines 346-353): the usual
absence guards, then the Jaro similarity of the lower-cased names (no
equality short-circuit here). -/
def repoNameScore (r1 r2 : Option String) : ℚ :=
  if (check_empty r1 && check_empty r2) || (r1 = some "" && r2 = some "") then 0
  else if r1 = some "NE" || r2 = some "NE" || check_empty r1 || check_empty r2
      || r1 = some "" || r2 = some "" then 0
  else jaro (pyLower (r1.getD "")) (pyLower (r2.getD ""))

/-- The six-component cdx package score vector (lines 371-377), in order:
author, type, purl, cpe, license, version. -/
def cdxPkgVector (p1 p2 : Pkg) : List ℚ :=
  [ text_consistency p1.author p2.author,
    equal_cmp p1.ptype p2.ptype,
    purl_consistency p1.purl p2.purl,
    longest_common_substring_consistency_score p1.cpe p2.cpe,
    license_consistency p1.licenses p2.licenses,
    version_consistency p1.version.join p2.version.join ]

/-- The anomaly fold of lines 378-384 for cdx vectors. -/
def cdxPkgAdjusted (p1 p2 : Pkg) : List ℚ :=
  if (cdxPkgVector p1 p2).any (fun x => decide (x < 0))
  then (cdxPkgVector p1 p2).map (fun x => qAbs x)
  else cdxPkgVector p1 p2

/-- The cdx component matching loop (lines 363-384). -/
def cdxPkgLoop (comps2 : List (String × Pkg)) (th : ℚ) :
    List (String × Pkg) → List String × List (List ℚ)
  | [] => ([], [])
  | (k1, p1) :: rest =>
    match (best_triple_match p1 comps2 th .cdx).1 with
    | some k2 =>
      let p2 := (comps2.lookup k2).getD default
      let r := cdxPkgLoop comps2 th rest
      (k1 :: r.1, cdxPkgAdjusted p1 p2 :: r.2)
    | none => cdxPkgLoop comps2 th rest

/-- The result record of `cdx_consistency` (`basic_info` omitted). -/
structure CdxScores where
  repo_info : List ℚ
  pkg_info : List (List ℚ)
  statistic_info : List Nat
  deriving DecidableEq

/-- Source `cdx_consistency` (lines 331-389) on two loaded documents: missing
metadata yields `[0, 0]` for `repo_info`; missing components yield zero
statistics and one zero score vector and return early; otherwise the
component loop runs with the usual empty-padding. -/
def cdx_consistency (d1 d2 : FileData) (th : ℚ) : CdxScores :=
  let repo : List ℚ :=
    match d1.metadata, d2.metadata with
    | some m1, some m2 =>
      [repoNameScore m1.name_com m2.name_com,
       version_consistency m1.version_com m2.version_com]
    | _, _ => [0, 0]
  match d1.components, d2.components with
  | some c1, some c2 =>
    let r := cdxPkgLoop c2 th c1
    { repo_info := repo,
      pkg_info := if r.2 = [] then [[0, 0, 0, 0, 0, 0]] else r.2,
      statistic_info := [c1.length, c2.length, r.1.length] }
  | _, _ =>
    { repo_info := repo,
      pkg_info := [[0, 0, 0, 0, 0, 0]],
      statistic_info := [0, 0, 0] }

/-- The outcome of opening and JSON-parsing one path, as `is_valid_json`
(lines 244-252) observes it: the file may be absent (`os.path.exists` is
false), reading or decoding may raise an exception that is NOT a
`json.JSONDecodeError` (for example `UnicodeDecodeError` for a file whose
bytes cannot be decoded, or `IsADirectoryError` when the path names a
directory), `json.load` may raise `json.JSONDecodeError`, or the file
parses. -/
inductive FileRead where
  | absent : FileRead
  | readError : FileRead
  | parseError : FileRead
  | ok : FileData → FileRead

/-- Source `is_valid_json` (lines 244-252) over an abstract file system
`fs : path to read outcome`: an absent file returns `False`; a
`json.JSONDecodeError` is caught by the `except` clause and returns `False`;
any OTHER exception raised by `open`/`json.load` is NOT caught — the
`except` clause names only `json.JSONDecodeError` — and propagates to the
caller, modelled by `.error` carrying the offending path; a file that parses
returns `True`. -/
def is_valid_json (fs : String → FileRead) (path : String) : Except String Bool :=
  match fs path with
  | .absent => Except.ok false
  | .readError => Except.error path
  | .parseError => Except.ok false
  | .ok _ => Except.ok true

/-- Source `compare_files` (lines 578-601): the validity flag is folded over
the path-equality check (pure, cannot raise) and the two `is_valid_json`
calls, which run unconditionally — even when the two paths are identical —
and whose uncaught exceptions propagate out of `compare_files` (the
`.error` results here); when the flag is unset the pair is skipped with
`None`, otherwise the consistency function of the requested standard runs on
the loaded documents.  The global counter and logging are out of scope; the
unused version/purl-threshold and match-mode parameters are dropped. -/
def compare_files (fs : String → FileRead) (file1_path file2_path : String)
    (standard : Standard) (th : ℚ) :
    Except String (Option (Sum SpdxScores CdxScores)) :=
  match is_valid_json fs file1_path with
  | Except.error e => Except.error e
  | Except.ok v1 =>
    match is_valid_json fs file2_path with
    | Except.error e => Except.error e
    | Except.ok v2 =>
      if file1_path = file2_path ∨ v1 = false ∨ v2 = false then Except.ok none
      else
        match fs file1_path, fs file2_path with
        | FileRead.ok d1, FileRead.ok d2 =>
          match standard with
          | Standard.spdx => Except.ok (some (Sum.inl (spdx_consistency d1 d2 th)))
          | Standard.cdx => Except.ok (some (Sum.inr (cdx_consistency d1 d2 th)))
        | _, _ => Except.ok none

/-- Check that every `pkg_info` entry is a whole vector; a flat numeric entry
makes the downstream `zip(*rows)` raise. -/
def allVecs : List (Sum ℚ (List ℚ)) → Option (List (List ℚ))
  | [] => some []
  | Sum.inr v :: rest => (allVecs rest).map (fun l => v :: l)
  | Sum.inl _ :: _ => none

/-- Python `zip(*rows)` truncates to the shortest row; this is its length. -/
def minLen : List (List ℚ) → Nat
  | [] => 0
  | r :: rs => rs.foldl (fun a x => min a x.length) r.length

/-- Column means over the zip-truncated columns. -/
def meanCols (rows : List (List ℚ)) : List ℚ :=
  (List.range (minLen rows)).map (fun j =>
    ((rows.map (fun r => r.getD j 0)).sum) / (rows.length : ℚ))

/-- Models the element-wise mean `[sum(x)/len(x) for x in zip(*…)]` applied to
`pkg_info` by `run_consistency_evaluator` (lines 674-679): Python `zip(*rows)`
requires every row to be iterable, so a flat numeric entry raises `TypeError`,
modelled by the `none` result; `some` is the computed mean row. -/
def zipStarMean (cells : List (Sum ℚ (List ℚ))) : Option (List ℚ) :=
  match allVecs cells with
  | none => none
  | some rows => some (meanCols rows)

/-- Guard elimination for `version_consistency`: on two present strings that
are not absence markers and not `NE`, the result is `versionCore`. -/
theorem version_consistency_some_eq_core (s1 s2 : String)
    (h1 : check_empty (some s1) = false) (h2 : check_empty (some s2) = false)
    (h3 : s1 ≠ "NE") (h4 : s2 ≠ "NE") :
    version_consistency (some s1) (some s2) = versionCore s1 s2 := by
  simp [version_consistency, h1, h2, h3, h4]

/-- C4 counterexample: `license_consistency` exceeds 1 when the token lists
contain duplicates.  `deal_license` turns `"MIT MIT"` into `[MIT, MIT]` and
`"MIT MIT X"` into `[MIT, MIT, X]`; the pairwise overlap sum is 4, divided by
the larger length 3, giving 4/3 > 1 — refuting the claim that every
field-similarity function returns a value in [0,1]. -/
theorem c4_license_score_exceeds_one :
    license_consistency (Lic.str "MIT MIT") (Lic.str "MIT MIT X") = 4/3 ∧
    ¬(license_consistency (Lic.str "MIT MIT") (Lic.str "MIT MIT X") ≤ 1) := by
  constructor
  · with_unfolding_all decide
  · with_unfolding_all decide

/-- C4 (amended): every field-similarity function returns a value in [0,1] —
`equal_cmp`, `compareName`, `text_consistency`, `version_consistency`,
`purl_consistency` and the longest-common-substring score unconditionally;
`license_consistency` is always nonnegative, and is at most 1 whenever the
normalised token list of its second argument is duplicate-free (with
duplicated tokens the pairwise-summed overlap can exceed the larger list
length, as the counterexample shows). -/
theorem c4_similarity_scores_bounded :
    (∀ v1 v2 : Option String, 0 ≤ equal_cmp v1 v2 ∧ equal_cmp v1 v2 ≤ 1) ∧
    (∀ n1 n2 : String, 0 ≤ compareName n1 n2 ∧ compareName n1 n2 ≤ 1) ∧
    (∀ t1 t2 : Option String, 0 ≤ text_consistency t1 t2 ∧ text_consistency t1 t2 ≤ 1) ∧
    (∀ v1 v2 : Option String,
      0 ≤ version_consistency v1 v2 ∧ version_consistency v1 v2 ≤ 1) ∧
    (∀ p1 p2 : Option String, 0 ≤ purl_consistency p1 p2 ∧ purl_consistency p1 p2 ≤ 1) ∧
    (∀ s1 s2 : Option String,
      0 ≤ longest_common_substring_consistency_score s1 s2 ∧
        longest_common_substring_consistency_score s1 s2 ≤ 1) ∧
    (∀ l1 l2 : Lic, 0 ≤ license_consistency l1 l2 ∧
      ((deal_license l2).Nodup → license_consistency l1 l2 ≤ 1)) :=
  ⟨equal_cmp_bounds, compareName_bounds, text_consistency_bounds,
   version_consistency_bounds, purl_consistency_bounds,
   longest_common_substring_consistency_score_bounds,
   fun l1 l2 => ⟨license_consistency_nonneg l1 l2,
     fun h => license_consistency_le_one_of_nodup l1 l2 h⟩⟩

/-- C4 witness: the bounds instantiated at concrete inputs, with the
duplicate-free hypothesis of the license clause discharged by computation. -/
theorem c4_similarity_scores_bounded_witness :
    (deal_license (Lic.str "MIT")).Nodup ∧
    (0 ≤ equal_cmp (some "Ab") (some "aB") ∧ equal_cmp (some "Ab") (some "aB") ≤ 1) ∧
    (0 ≤ version_consistency (some "1.2.3") (some "1.2.4") ∧
      version_consistency (some "1.2.3") (some "1.2.4") ≤ 1) ∧
    license_consistency (Lic.str "Apache-2.0") (Lic.str "MIT") ≤ 1 :=
  ⟨by decide, c4_similarity_scores_bounded.1 (some "Ab") (some "aB"),
   c4_similarity_scores_bounded.2.2.2.1 (some "1.2.3") (some "1.2.4"),
   (c4_similarity_scores_bounded.2.2.2.2.2.2 (Lic.str "Apache-2.0")
     (Lic.str "MIT")).2 (by decide)⟩

/-- C5: `purl_consistency` tests case-insensitive equality of two truthy
values BEFORE the placeholder guards (source lines 95-101), so the equal
placeholder pairs `('NE','NE')` and `('NONE','NONE')` score a perfect 1.0
instead of the 0 the claim requires.  The code contradicts the convention
every sibling similarity function follows (placeholders first), so the claim
is right and the code has the checks in the wrong order. -/
theorem c5_equal_placeholders_score_one :
    purl_consistency (some "NE") (some "NE") = 1 ∧
    purl_consistency (some "NONE") (some "NONE") = 1 ∧
    purl_consistency (some "NE") (some "abc") = 0 ∧
    purl_consistency (none) (some "abc") = 0 := by
  refine ⟨?_, ?_, ?_, ?_⟩ <;> with_unfolding_all decide

/-- C2: in the fallback numeric branch the source computes
`|a-b|/max(a,b) * weight` (line 238) — the relative difference itself, not
`1 - relative difference` as the claim states.  At `("1.4", "1.1")` the first
position is equal (weight 0.8) and the second position contributes
`|4-1|/4 * 0.2 = 0.15`, so the result is 0.95; the claim's formula would give
`0.8 + (1 - 3/4) * 0.2 = 0.85`. -/
theorem c2_numeric_branch_uses_relative_difference :
    version_consistency (some "1.4") (some "1.1") = 19/20 ∧
    (19/20 : ℚ) ≠ 8/10 + (1 - 3/4) * (2/10) := by
  constructor
  · with_unfolding_all decide
  · with_unfolding_all decide

/-- C9: `version_consistency("1.2.3", "1.2.4")` returns 0.925, not the 0.9
the claim states.  The semantic-version path is dead code (its `try` block
always raises and is swallowed), so the fallback path runs and its inverted
numeric formula contributes `|3-4|/4 * 0.1 = 0.025` at the patch position on
top of the perfect 0.7 + 0.2. -/
theorem c9_version_example_is_0925 :
    version_consistency (some "1.2.3") (some "1.2.4") = 37/40 ∧
    (37/40 : ℚ) ≠ 9/10 := by
  constructor
  · with_unfolding_all decide
  · with_unfolding_all decide

/-- C7 counterexample: two version strings containing `15.4.6` that become
equal after stripping one leading `v` are scored 0, not 1: the manual-marker
branch (source lines 165-168) fires before the normalisation. -/
theorem c7_manual_marker_ctrex :
    pyLower (vNorm "v15.4.6") = pyLower (vNorm "15.4.6") ∧
    version_consistency (some "v15.4.6") (some "15.4.6") = 0 := by
  constructor
  · decide
  · with_unfolding_all decide

/-- C7 (amended): for every pair of non-absent, non-`NE`, nonempty version
strings NEITHER OF WHICH CONTAINS the substring `15.4.6`, equality of the
normalised forms (all spaces removed, one leading `v`/`V` dropped,
case-insensitive) forces a score of 1. -/
theorem c7_normalized_equal_scores_one (s1 s2 : String)
    (h1 : check_empty (some s1) = false) (h2 : check_empty (some s2) = false)
    (h3 : s1 ≠ "NE") (h4 : s2 ≠ "NE") (h5 : s1 ≠ "") (h6 : s2 ≠ "")
    (h7 : strContains s1 "15.4.6" = false) (h8 : strContains s2 "15.4.6" = false)
    (heq : pyLower (vNorm s1) = pyLower (vNorm s2)) :
    version_consistency (some s1) (some s2) = 1 := by
  rw [version_consistency_some_eq_core s1 s2 h1 h2 h3 h4]
  unfold versionCore
  by_cases hl : pyLower s1 = pyLower s2
  · rw [if_pos hl]
  · rw [if_neg hl, if_neg (by simp [h5, h6]), if_neg (by simp [h7, h8]), if_pos heq]

/-- C7 witness: the amended claim applied at `("V1.0", "1.0")`. -/
theorem c7_normalized_equal_scores_one_witness :
    pyLower (vNorm "V1.0") = pyLower (vNorm "1.0") ∧
    version_consistency (some "V1.0") (some "1.0") = 1 :=
  ⟨by decide, c7_normalized_equal_scores_one "V1.0" "1.0" (by decide) (by decide)
    (by decide) (by decide) (by decide) (by decide) (by decide) (by decide)
    (by decide)⟩

/-- C1 (amended): provided the acceptance threshold exceeds the -1 sentinel
that initialises the running best score, `best_triple_match` returns the key
of the first candidate attaining the maximum triple score among the
candidates whose name score is exactly 1 (ties keep the first seen, and the
3.0 early stop cannot change the result because every triple score is at
most 3), together with that score, when the maximum reaches the threshold —
and `(none, 0)` otherwise (in particular whenever no candidate name
matches). -/
theorem c1_best_triple_match_selects_max (std : Standard) (p1 : Pkg)
    (pkgs2 : List (String × Pkg)) (threshold : ℚ) (hth : -1 < threshold) :
    best_triple_match p1 pkgs2 threshold std =
      (if threshold ≤ (scoredList std p1 pkgs2).foldl (fun a q => max a q.2) (-1) then
        (((scoredList std p1 pkgs2).find? (fun q =>
            decide (q.2 =
              (scoredList std p1 pkgs2).foldl (fun a q2 => max a q2.2) (-1)))).map
          Prod.fst,
         (scoredList std p1 pkgs2).foldl (fun a q => max a q.2) (-1))
      else (none, 0)) := by
  unfold best_triple_match
  rw [btmLoop_eq_scanN std p1 pkgs2 (-1) none (by norm_num)]
  obtain ⟨h1, h2⟩ := scanN_spec (scoredList std p1 pkgs2) (-1) none
  rw [h1, h2]
  by_cases hc : threshold ≤ (scoredList std p1 pkgs2).foldl (fun a q => max a q.2) (-1)
  · rw [if_pos hc, if_pos hc, if_pos (lt_of_lt_of_le hth hc)]
  · rw [if_neg hc, if_neg hc]

/-- Source entity used by the C1 witness. -/
def c1wp1 : Pkg := { name := "aaa", versionInfo := some "1.0" }

/-- Candidate collection used by the C1 witness. -/
def c1wlist : List (String × Pkg) := [("k1", { name := "aaa", versionInfo := some "1.0" })]

/-- C1 witness: the amended characterisation applied at a concrete entity and
one-candidate collection with threshold 2. -/
theorem c1_best_triple_match_selects_max_witness :
    (-1 : ℚ) < 2 ∧
    best_triple_match c1wp1 c1wlist 2 Standard.spdx =
      (if (2 : ℚ) ≤ (scoredList Standard.spdx c1wp1 c1wlist).foldl
          (fun a q => max a q.2) (-1) then
        (((scoredList Standard.spdx c1wp1 c1wlist).find? (fun q =>
            decide (q.2 =
              (scoredList Standard.spdx c1wp1 c1wlist).foldl
                (fun a q2 => max a q2.2) (-1)))).map
          Prod.fst,
         (scoredList Standard.spdx c1wp1 c1wlist).foldl (fun a q => max a q.2) (-1))
      else (none, 0)) :=
  ⟨by norm_num,
   c1_best_triple_match_selects_max Standard.spdx c1wp1 c1wlist 2 (by norm_num)⟩

/-- C1 counterexample: with a threshold of -1 (the default the spdx caller
declares) and no name-matching candidate, the function returns `(None, -1)` —
neither a candidate key nor the `(None, 0)` the claim promises for the
unmatched case. -/
theorem c1_threshold_corner_ctrex :
    best_triple_match { name := "aaa" } [] (-1) Standard.spdx = (none, -1) ∧
    ((none, -1) : Option String × ℚ) ≠ ((none, 0) : Option String × ℚ) := by
  constructor
  · with_unfolding_all decide
  · with_unfolding_all decide

/-- Spdx documents with one file each bearing IDENTICAL names, so that under
the claimed behaviour the file pair would match (C3 fixture). -/
def c3doc1 : FileData := { files := some [("a", { name := "same", checksums := [] })] }

/-- Second C3 fixture document, holding one file with the same name. -/
def c3doc2 : FileData := { files := some [("b", { name := "same", checksums := [] })] }

/-- C3: the claim describes the intended behaviour, but the file comparison
never runs in the program.  `files_flag` is initialised `False` at source
line 438 — its sibling `pkg_flag` is initialised `True` at line 432 — and no
statement ever sets it `True`, so the block `if files_flag:` (lines 453-505)
is unreachable dead code: for EVERY spdx pair with both file collections
present (and under the cap) the program performs no file-level comparison,
emits only the padding `files_info = [[0]]`, and records file statistics
`[0, 0, 0]` instead of the collection sizes and the matched count. -/
theorem c3_file_comparison_never_runs (d1 d2 : FileData) (th : ℚ)
    (l1 l2 : List (String × SpdxFile))
    (h1 : d1.files = some l1) (h2 : d2.files = some l2)
    (hc1 : l1.length ≤ 2000) (hc2 : l2.length ≤ 2000) :
    (spdx_consistency d1 d2 th).files_info = [[0]] ∧
    (spdx_consistency d1 d2 th).statistic_info.take 3 = [0, 0, 0] := by
  cases hp1 : d1.packages <;> cases hp2 : d2.packages <;>
    simp [spdx_consistency, hp1, hp2, List.take]

/-- C3 witness: the dead-code behaviour at the matching-name fixture pair,
where the claimed behaviour would have produced one matched file and the
statistics [1, 1, 1]. -/
theorem c3_file_comparison_never_runs_witness :
    c3doc1.files = some [("a", { name := "same", checksums := [] })] ∧
    ((spdx_consistency c3doc1 c3doc2 (-1)).files_info = [[0]] ∧
     (spdx_consistency c3doc1 c3doc2 (-1)).statistic_info.take 3 = [0, 0, 0]) :=
  ⟨rfl, c3_file_comparison_never_runs c3doc1 c3doc2 (-1) _ _ rfl rfl
    (by decide) (by decide)⟩

/-- A 2001-file collection (C6 fixture). -/
def c6big : List (String × SpdxFile) :=
  List.replicate 2001 ("k", { name := "n", checksums := [] })

/-- Length of the oversized fixture collection. -/
theorem c6big_length : c6big.length = 2001 := by
  unfold c6big
  exact List.length_replicate _ _

/-- Document wrapping the oversized collection (C6 fixture). -/
def c6doc1 : FileData := { files := some c6big }

/-- One-file counterpart document (C6 fixture). -/
def c6doc2 : FileData := { files := some [("b", { name := "n", checksums := [] })] }

/-- C6: for every spdx document pair in which both file collections are
present and either has more than 2000 entries, no file-level per-entity
comparison is attempted and the recorded file-level statistics are all zero.
This holds — though for a stronger reason than the guard the spec narrates:
the whole file-comparison block, including its 2000-entry cap test (source
lines 455-458), is dead code (`files_flag`, line 438, is never `True`), so
no comparison is ever attempted, the file statistics are `[0, 0, 0]` for
every pair, oversized or not, and `files_info` holds only the `[[0]]`
padding. -/
theorem c6_cap_stats_all_zero (d1 d2 : FileData) (th : ℚ)
    (l1 l2 : List (String × SpdxFile))
    (h1 : d1.files = some l1) (h2 : d2.files = some l2)
    (hcap : 2000 < l1.length ∨ 2000 < l2.length) :
    (spdx_consistency d1 d2 th).files_info = [[0]] ∧
    (spdx_consistency d1 d2 th).statistic_info.take 3 = [0, 0, 0] := by
  cases hp1 : d1.packages <;> cases hp2 : d2.packages <;>
    simp [spdx_consistency, hp1, hp2, List.take]

/-- C6 witness: the claim applied to the 2001-file fixture. -/
theorem c6_cap_stats_all_zero_witness :
    (2000 < c6big.length ∨ 2000 < (1 : Nat)) ∧
    ((spdx_consistency c6doc1 c6doc2 (-1)).files_info = [[0]] ∧
     (spdx_consistency c6doc1 c6doc2 (-1)).statistic_info.take 3 = [0, 0, 0]) :=
  ⟨Or.inl (by rw [c6big_length]; omega),
   c6_cap_stats_all_zero c6doc1 c6doc2 (-1) c6big _ rfl rfl
     (Or.inl (by rw [c6big_length]; omega))⟩

/-- A document whose packages and files were both not evaluated (C8
fixture). -/
def c8doc : FileData := {}

/-- C8: the missing-packages branch of `spdx_consistency` (source lines
511-515) assigns `pkg_info = [0]*10` — a FLAT list of ten zeros, not a list
of score vectors like the normal path (and unlike the correctly nested cdx
counterpart at line 361) — so the downstream element-wise mean over
`pkg_info` in `run_consistency_evaluator` (`zip(*pkg_info)`) raises
`TypeError` instead of producing a zero mean row.  `repo_info` and
`files_info` do degrade to correctly shaped zero vectors. -/
theorem c8_flat_pkg_info_breaks_mean :
    (spdx_consistency c8doc c8doc (-1)).pkg_info = List.replicate 10 (Sum.inl 0) ∧
    zipStarMean (spdx_consistency c8doc c8doc (-1)).pkg_info = none ∧
    (spdx_consistency c8doc c8doc (-1)).repo_info = List.replicate 11 (0 : ℚ) ∧
    (spdx_consistency c8doc c8doc (-1)).files_info = [[0]] := by
  refine ⟨?_, ?_, ?_, ?_⟩ <;> with_unfolding_all decide

/-- File-system fixture for C10: the path `bad` raises on read (a file with
undecodable bytes, or a directory), `missing` is absent, `malformed` exists
but fails JSON parsing with `json.JSONDecodeError`, and every other path
parses. -/
def c10fs : String → FileRead := fun p =>
  if p = "bad" then FileRead.readError
  else if p = "missing" then FileRead.absent
  else if p = "malformed" then FileRead.parseError
  else FileRead.ok {}

/-- C10: the skip guard is narrower than the claim states.  An absent file,
a `json.JSONDecodeError` parse failure and identical readable paths do skip
the pair with `None` — but `is_valid_json` catches ONLY
`json.JSONDecodeError` (source line 251), so a file that exists and cannot
be read or decoded (`UnicodeDecodeError`, `IsADirectoryError`, …) makes
`compare_files` raise and abort the batch, even when the two paths are
identical, contradicting the claim that such a pair "returns None and does
not raise, so the batch over other pairs continues". -/
theorem c10_unparseable_file_raises :
    compare_files c10fs "bad" "good" Standard.spdx 2 = Except.error "bad" ∧
    compare_files c10fs "bad" "bad" Standard.spdx 2 = Except.error "bad" ∧
    compare_files c10fs "missing" "good" Standard.spdx 2 = Except.ok none ∧
    compare_files c10fs "malformed" "good" Standard.spdx 2 = Except.ok none ∧
    compare_files c10fs "good" "good" Standard.spdx 2 = Except.ok none := by
  refine ⟨rfl, rfl, rfl, rfl, rfl⟩
